import Mathlib

/-!
Shallow embedding of `src/networkx/algorithms/centrality/eigenvector.py`
(functions `eigenvector_centrality` and `eigenvector_centrality_numpy`).

Modelling conventions:
* Python floats are modelled by `ℝ`; `math.sqrt` by `Real.sqrt`; `np.sign`
  by `Real.sign` (all three agree on the sign convention 0 ↦ 0, pos ↦ 1,
  neg ↦ -1).
* A Python dict keyed by nodes is modelled by an association list
  `List (ℕ × ℝ)`; lookups of keys that the caller is required to supply
  (spec: the starting vector "must cover every node", caller
  responsibility) use `vget`, which returns the stored value for a present
  key.  Sums over `dict.values()` are order-independent in `ℝ`, matching
  Python's unspecified dict order.
* Python float division raising `ZeroDivisionError` is modelled by
  `pyDiv`, an `Except` value; the `DivSite` tag records which of the two
  unguarded division sites of the initialization phase (line 74:
  `1.0/len(G)`, line 78: `s=1.0/sum(x.values())`) raised, i.e. the
  traceback location.
* The `try: s=1.0/sqrt(...) except ZeroDivisionError: s=1.0` guard of the
  iteration (lines 90-93) is modelled by an `if`: over floats,
  `1.0/sqrt(t)` raises exactly when `sqrt(t) == 0.0`.
* `raise` is modelled by returning `Except.error` carrying the exception
  kind and its message string, copied verbatim from the source.  In
  particular the convergence-failure message of lines 100-101 is a fixed
  string literal: in the source the `%`-formatting operator and `(i+1)`
  sit *inside* the triple-quoted string, so no interpolation happens.
-/

namespace EV

/-- Which of the two unguarded division sites of the initialization phase
raised (models the Python traceback location of a `ZeroDivisionError`). -/
inductive DivSite
  | startValue            -- line 74: `1.0/len(G)`
  | startNormalization    -- line 78: `s=1.0/sum(x.values())`
deriving DecidableEq

/-- The Python exceptions that can escape the two functions. -/
inductive PyExc
  | exception (msg : String)           -- `raise Exception(...)`
  | networkXError (msg : String)       -- `raise networkx.NetworkXError(...)`
  | zeroDivisionError (site : DivSite) -- uncaught `ZeroDivisionError`
  | importError (msg : String)         -- `raise ImportError(...)`
deriving DecidableEq

/-- A Python dict from node to float: association list. -/
abbrev Vec := List (ℕ × ℝ)

/-- The graph abstraction the source consumes: node list (`G.nodes()`),
adjacency `G[n]` as a list of (neighbor, optional weight attribute) pairs,
and the result of the `type(G) == networkx.MultiGraph or ...` test. -/
structure PyGraph where
  nodes : List ℕ
  adj : ℕ → List (ℕ × Option ℝ)
  isMultigraph : Bool

/-- Python float division `a / b`, raising `ZeroDivisionError` when `b == 0`. -/
noncomputable def pyDiv (site : DivSite) (a b : ℝ) : Except PyExc ℝ :=
  if b = 0 then .error (.zeroDivisionError site) else .ok (a / b)

/-- `G[n][nbr].get('weight',1)`: the effective edge weight, defaulting to 1. -/
def weight (w : Option ℝ) : ℝ := w.getD 1

/-- `sum(x.values())`. -/
def sumVals (v : Vec) : ℝ := (v.map Prod.snd).sum

/-- Dict read `x[k]` (key assumed present, see module docstring). -/
def vget (v : Vec) (k : ℕ) : ℝ := (v.lookup k).getD 0

/-- `for k in x: x[k] *= s` (lines 79 and 94). -/
def scaleVec (s : ℝ) (v : Vec) : Vec := v.map (fun p => (p.1, p.2 * s))

/-- The dict comprehension `dict([(n,1.0/len(G)) for n in G])` (line 74):
the division `1.0/len(G)` is evaluated once per node, so it is evaluated
at all only when the node list is non-empty. -/
noncomputable def initList (len : ℕ) : List ℕ → Except PyExc Vec
  | [] => .ok []
  | n :: t =>
    match pyDiv .startValue 1 (len : ℝ) with
    | .error e => .error e
    | .ok v =>
      match initList len t with
      | .error e => .error e
      | .ok r => .ok ((n, v) :: r)

/-- Inner loop of the multiplication (line 87-88):
`for nbr in G[n]: x[n] += xlast[nbr]*G[n][nbr].get('weight',1)`,
starting from `x[n] = 0`. -/
def rowSum (G : PyGraph) (xlast : Vec) (n : ℕ) : ℝ :=
  (G.adj n).foldl (fun acc bw => acc + vget xlast bw.1 * weight bw.2) 0

/-- Lines 84-88: `x=dict.fromkeys(xlast.keys(),0)` then the multiplication
`y=Ax`; the new dict has the keys of `xlast` and is produced by reading
only `xlast` (which is never written in the loop body). -/
def matvec (G : PyGraph) (xlast : Vec) : Vec :=
  xlast.map (fun p => (p.1, rowSum G xlast p.1))

/-- `sum(v**2 for v in x.values())`. -/
def sumSquares (v : Vec) : ℝ := (v.map (fun p => p.2 ^ 2)).sum

/-- Lines 90-94: `s=1.0/sqrt(sum(v**2 ...))` with the `ZeroDivisionError`
guard setting `s=1.0`, then `for n in x: x[n]*=s`. -/
noncomputable def normalizeStep (v : Vec) : Vec :=
  scaleVec
    (if Real.sqrt (sumSquares v) = 0 then 1 else 1 / Real.sqrt (sumSquares v)) v

/-- One round of the power iteration: multiplication then normalization. -/
noncomputable def iterStep (G : PyGraph) (x : Vec) : Vec :=
  normalizeStep (matvec G x)

/-- Line 96: `err=sum([abs(x[n]-xlast[n]) for n in x])`. -/
def errSum (x xlast : Vec) : ℝ :=
  (x.map (fun p => |p.2 - vget xlast p.1|)).sum

/-- The message of the `NetworkXError` raised at lines 100-101.  It is a
fixed literal: in the source the `%`-formatting and `(i+1)` are part of
the triple-quoted string, so the iteration count is never interpolated. -/
def convergenceMsg : String :=
  "eigenvector_centrality(): \npower iteration failed to converge in %d iterations.\"%(i+1))"

/-- Lines 82-101: `for i in range(max_iter)` running one iteration per
round, returning as soon as `err < nnodes*tol`, and raising the
(fixed-message) `NetworkXError` when the budget is exhausted. -/
noncomputable def powerLoop (G : PyGraph) (nnodes : ℕ) (tol : ℝ) :
    ℕ → Vec → Except PyExc Vec
  | 0, _ => .error (.networkXError convergenceMsg)
  | fuel + 1, x =>
    if errSum (iterStep G x) x < (nnodes : ℝ) * tol then .ok (iterStep G x)
    else powerLoop G nnodes tol fuel (iterStep G x)

/-- `eigenvector_centrality(G, max_iter=100, tol=1.0e-6, nstart=None)`
(lines 20-101).  Control flow: multigraph rejection first; then the
starting vector (default `1/len(G)` per node, else the caller's `nstart`);
then the L1 normalization `s=1.0/sum(x.values()); for k in x: x[k]*=s`;
then the power loop with convergence threshold `number_of_nodes(G)*tol`. -/
noncomputable def eigenvector_centrality (G : PyGraph) (max_iter : ℕ) (tol : ℝ)
    (nstart : Option Vec) : Except PyExc Vec :=
  if G.isMultigraph then
    .error (.exception "eigenvector_centrality() not defined for multigraphs.")
  else
    match (match nstart with
           | none => initList G.nodes.length G.nodes
           | some ns => .ok ns : Except PyExc Vec) with
    | .error e => .error e
    | .ok x0 =>
      match pyDiv .startNormalization 1 (sumVals x0) with
      | .error e => .error e
      | .ok s => powerLoop G G.nodes.length tol max_iter (scaleVec s x0)

/-- The caller's `nstart` dict after a call of `eigenvector_centrality`
that was given it.  Line 76 binds `x` to the same object (no copy), and
line 79 scales every entry in place by `s = 1.0/sum(x.values())`; if that
division raises, the scaling never runs and the dict is unchanged.  The
later loop rounds rebind `x` to fresh dicts (line 84), so no further
writes reach the caller's object. -/
noncomputable def nstart_after_call (ns : Vec) : Vec :=
  match pyDiv .startNormalization 1 (sumVals ns) with
  | .ok s => scaleVec s ns
  | .error _ => ns

/-- The eigendecomposition oracle: `np.linalg.eig` (an external numeric
capability per the spec).  Input: a dense matrix as a list of rows;
output: the list of eigenvalues and the list of eigenvector *columns*
(`eigenvectors[:,i]` is column `i`). -/
abbrev EigOracle := List (List ℝ) → List ℝ × List (List ℝ)

/-- Entry `A[i][j]` of the adjacency matrix: weight of the edge, 0 when
absent. -/
def lookupWeight (G : PyGraph) (i j : ℕ) : ℝ :=
  match (G.adj i).lookup j with
  | some w => weight w
  | none => 0

/-- Modelled from the spec: `denseAdjacencyMatrix(graph, nodeOrder)` —
`networkx.adj_matrix(G, nodelist=nodes)` (line 152) is repository code not
under `src/`; the spec requires the dense weighted adjacency matrix built
in caller-specified node order. -/
def adjMatrix (G : PyGraph) (order : List ℕ) : List (List ℝ) :=
  order.map (fun i => order.map (fun j => lookupWeight G i j))

/-- `array.max()` of a (nonempty) numpy array. -/
def listMax : List ℝ → ℝ
  | [] => 0
  | h :: t => t.foldl max h

/-- `eigenvalues.argsort()[::-1]` then taking `ind[0]`: an index of a
largest eigenvalue (ties broken by library order, per the spec not
independently disambiguated; we take the last index attaining the max,
matching a reversed stable ascending sort). -/
noncomputable def argmaxIdx (l : List ℝ) : ℕ :=
  (l.enum.foldl (fun best p => if best.2 ≤ p.2 then p else best) (0, l.headD 0)).1

/-- `largest=np.array(eigenvectors[:,ind[0]])` (lines 155-157). -/
noncomputable def selectedEigvec (eig : EigOracle) (A : List (List ℝ)) : List ℝ :=
  ((eig A).2).getD (argmaxIdx (eig A).1) []

/-- `largest*np.sign(largest.max())` (line 158): the sign convention. -/
noncomputable def signedVec (v : List ℝ) : List ℝ :=
  v.map (fun a => a * Real.sign (listMax v))

/-- One round of the component loop body (lines 151-158): build the
component's adjacency matrix, decompose, select the dominant eigenvector,
apply the sign convention, and pair with the component's nodes. -/
noncomputable def processComponent (G : PyGraph) (eig : EigOracle)
    (comp : List ℕ) : Vec :=
  comp.zip (signedVec (selectedEigvec eig (adjMatrix G comp)))

/-- Python `dict` assignment `c[k] = v`: replace the value of a present
key in place, else append the new key. -/
def setKey (c : Vec) (p : ℕ × ℝ) : Vec :=
  if (c.lookup p.1).isSome then
    c.map (fun q => if q.1 = p.1 then (q.1, p.2) else q)
  else c ++ [p]

/-- `centrality.update(zip(nodes, ...))` (line 158). -/
def updateVec (c : Vec) (kvs : Vec) : Vec := kvs.foldl setKey c

/-- Lines 148-158: `centrality=dict.fromkeys(G.nodes(),0)` then the
per-component loop.  The component list (`networkx.connected_components`,
repository code not under `src/`) is modelled from the spec as an input:
a sequence of node lists partitioning all nodes exactly once. -/
noncomputable def assembledVec (G : PyGraph) (components : List (List ℕ))
    (eig : EigOracle) : Vec :=
  components.foldl (fun c comp => updateVec c (processComponent G eig comp))
    (G.nodes.map (fun n => (n, (0 : ℝ))))

/-- Lines 159-160: one global division of every entry by the whole-vector
L2 norm `np.linalg.norm(centrality.values())`. -/
noncomputable def spectralResult (G : PyGraph) (components : List (List ℕ))
    (eig : EigOracle) : Vec :=
  (assembledVec G components eig).map
    (fun p => (p.1, p.2 / Real.sqrt (sumSquares (assembledVec G components eig))))

/-- `eigenvector_centrality_numpy(G)` (lines 104-160).  Control flow: the
`try: import numpy` check first (lines 138-142, modelled by the
`numpyAvailable` flag of the call environment), then the multigraph
rejection, then the per-component assembly and the final global
normalization. -/
noncomputable def eigenvector_centrality_numpy (G : PyGraph)
    (numpyAvailable : Bool) (components : List (List ℕ)) (eig : EigOracle) :
    Except PyExc Vec :=
  if numpyAvailable = false then
    .error (.importError "eigenvector_centrality_numpy() requires NumPy: http://scipy.org/")
  else if G.isMultigraph then
    .error (.exception "eigenvector_centrality_numpy() not defined for multigraphs.")
  else .ok (spectralResult G components eig)

/-! Concrete fixtures used by the counterexamples and witnesses. -/

/-- One node `0`, no edges, not a multigraph. -/
def G1 : PyGraph := ⟨[0], fun _ => [], false⟩

/-- The empty graph: zero nodes. -/
def Gempty : PyGraph := ⟨[], fun _ => [], false⟩

/-- A multigraph (the `type(G)` test yields true). -/
def Gmulti : PyGraph := ⟨[0], fun _ => [], true⟩

/-- Node `0` isolated; node `1` carries a self-loop of default weight. -/
def Gloop : PyGraph :=
  ⟨[0, 1], fun n => if n = 1 then [(1, none)] else [], false⟩

/-- The 2-node path `0 - 1` with default weight. -/
def Gpath : PyGraph :=
  ⟨[0, 1], fun n =>
    if n = 0 then [(1, none)] else if n = 1 then [(0, none)] else [], false⟩

/-- Node `0` isolated; nodes `1 - 2` joined by an edge of default weight. -/
def Giso : PyGraph :=
  ⟨[0, 1, 2], fun n =>
    if n = 1 then [(2, none)] else if n = 2 then [(1, none)] else [], false⟩

/-- A starting vector for the path graph whose entries already sum to 1. -/
def nsPath : Vec := [(0, 0), (1, 1)]

/-- Eigendecomposition of the 1×1 zero matrix as numpy returns it:
eigenvalue 0 with unit eigenvector `[1.]`. -/
def eigC1 : EigOracle := fun _ => ([0], [[1]])

/-- Eigendecompositions as numpy returns them for the two component
matrices of `Giso`: the 1×1 zero matrix has eigenvalue 0 with unit
eigenvector `[1.]`; the 2×2 matrix `[[0,1],[1,0]]` has eigenvalues 1, -1
with unit eigenvector columns `[√2/2, √2/2]` and `[√2/2, -√2/2]`. -/
noncomputable def eigC2 : EigOracle := fun A =>
  if A.length = 1 then ([0], [[1]])
  else ([1, -1], [[Real.sqrt 2 / 2, Real.sqrt 2 / 2],
                  [Real.sqrt 2 / 2, -(Real.sqrt 2 / 2)]])

/-- A decomposition whose dominant eigenvector `[0, -1]` has maximum
entry exactly 0 (the degenerate case of the sign convention). -/
def eigZ : EigOracle := fun _ => ([5, 1], [[0, -1], [1, 0]])

/-! General lemmas about the embedding. -/

theorem powerLoop_zero (G : PyGraph) (nn : ℕ) (tol : ℝ) (x : Vec) :
    powerLoop G nn tol 0 x = .error (.networkXError convergenceMsg) := rfl

theorem powerLoop_succ (G : PyGraph) (nn : ℕ) (tol : ℝ) (fuel : ℕ) (x : Vec) :
    powerLoop G nn tol (fuel + 1) x =
      if errSum (iterStep G x) x < (nn : ℝ) * tol then .ok (iterStep G x)
      else powerLoop G nn tol fuel (iterStep G x) := rfl

theorem sum_map_const {α : Type} (l : List α) (c : ℝ) :
    (l.map (fun _ => c)).sum = l.length * c := by
  induction l with
  | nil => simp
  | cons a t ih => simp [ih]; ring

theorem lookup_map_snd (v : Vec) (f : ℕ → ℝ → ℝ) (k : ℕ) :
    (v.map (fun p => (p.1, f p.1 p.2))).lookup k =
      (v.lookup k).map (fun b => f k b) := by
  induction v with
  | nil => rfl
  | cons p t ih =>
    rcases p with ⟨a, b⟩
    by_cases h : k = a
    · subst h; simp [List.lookup]
    · have hba : (k == a) = false := by simp [h]
      simp [List.lookup, hba, ih]

theorem lookup_scaleVec (s : ℝ) (v : Vec) (k : ℕ) :
    (scaleVec s v).lookup k = (v.lookup k).map (fun b => b * s) :=
  lookup_map_snd v (fun _ b => b * s) k

theorem lookup_matvec (G : PyGraph) (z : Vec) (k : ℕ) :
    (matvec G z).lookup k = (z.lookup k).map (fun _ => rowSum G z k) :=
  lookup_map_snd z (fun a _ => rowSum G z a) k

theorem lookup_map_const (l : List ℕ) (c : ℝ) (k : ℕ) (h : k ∈ l) :
    (l.map (fun n => (n, c))).lookup k = some c := by
  induction l with
  | nil => cases h
  | cons a t ih =>
    by_cases hk : k = a
    · subst hk; simp [List.lookup]
    · rcases List.mem_cons.mp h with h' | h'
      · exact absurd h' hk
      · have hba : (k == a) = false := by simp [hk]
        simp [List.lookup, hba, ih h']

theorem sumSquares_nonneg (v : Vec) : 0 ≤ sumSquares v := by
  apply List.sum_nonneg
  intro x hx
  rcases List.mem_map.mp hx with ⟨p, _, rfl⟩
  positivity

theorem sumSquares_eq_zero (v : Vec) (h : sumSquares v = 0) :
    ∀ p ∈ v, p.2 = 0 := by
  induction v with
  | nil => simp
  | cons p t ih =>
    have h1 : p.2 ^ 2 + sumSquares t = 0 := by simpa [sumSquares] using h
    have hp : 0 ≤ p.2 ^ 2 := sq_nonneg _
    have ht : 0 ≤ sumSquares t := sumSquares_nonneg t
    have hp0 : p.2 ^ 2 = 0 := by linarith
    have ht0 : sumSquares t = 0 := by linarith
    intro q hq
    rcases List.mem_cons.mp hq with rfl | hq
    · exact pow_eq_zero_iff (two_ne_zero) |>.mp hp0
    · exact ih ht0 q hq

theorem sumSquares_scale (s : ℝ) (v : Vec) :
    sumSquares (scaleVec s v) = sumSquares v * s ^ 2 := by
  induction v with
  | nil => simp [sumSquares, scaleVec]
  | cons p t ih =>
    simp only [sumSquares, scaleVec, List.map_cons, List.sum_cons] at ih ⊢
    rw [mul_pow, ih]; ring

theorem sumSquares_div (d : ℝ) (v : Vec) :
    sumSquares (v.map (fun p => (p.1, p.2 / d))) = sumSquares v / d ^ 2 := by
  induction v with
  | nil => simp [sumSquares]
  | cons p t ih =>
    simp only [sumSquares, List.map_cons, List.sum_cons] at ih ⊢
    rw [div_pow, ih, div_add_div_same]

theorem normalize_norm_or_zero (v : Vec) :
    Real.sqrt (sumSquares (normalizeStep v)) = 1 ∨
      ∀ p ∈ normalizeStep v, p.2 = 0 := by
  by_cases h : Real.sqrt (sumSquares v) = 0
  · right
    have hS : sumSquares v = 0 := by
      rwa [Real.sqrt_eq_zero (sumSquares_nonneg v)] at h
    intro p hp
    simp only [normalizeStep, if_pos h, scaleVec] at hp
    rcases List.mem_map.mp hp with ⟨q, hq, rfl⟩
    simp [sumSquares_eq_zero v hS q hq]
  · left
    have hS0 : sumSquares v ≠ 0 := fun hc => h (by rw [hc, Real.sqrt_zero])
    have hSpos : 0 < sumSquares v :=
      lt_of_le_of_ne (sumSquares_nonneg v) (Ne.symm hS0)
    simp only [normalizeStep, if_neg h, sumSquares_scale]
    rw [div_pow, one_pow, Real.sq_sqrt hSpos.le, mul_one_div, div_self hS0,
      Real.sqrt_one]

theorem powerLoop_ok (G : PyGraph) (nn : ℕ) (tol : ℝ) :
    ∀ (fuel : ℕ) (x y : Vec), powerLoop G nn tol fuel x = .ok y →
      ∃ z, y = iterStep G z := by
  intro fuel
  induction fuel with
  | zero =>
    intro x y h
    rw [powerLoop_zero] at h
    exact Except.noConfusion h
  | succ k ih =>
    intro x y h
    rw [powerLoop_succ] at h
    split at h
    · injection h with h'
      exact ⟨x, h'.symm⟩
    · exact ih _ _ h

theorem powerLoop_error (G : PyGraph) (nn : ℕ) (tol : ℝ) :
    ∀ (fuel : ℕ) (x : Vec) (e : PyExc), powerLoop G nn tol fuel x = .error e →
      e = .networkXError convergenceMsg := by
  intro fuel
  induction fuel with
  | zero =>
    intro x e h
    rw [powerLoop_zero] at h
    injection h with h'
    exact h'.symm
  | succ k ih =>
    intro x e h
    rw [powerLoop_succ] at h
    split at h
    · exact Except.noConfusion h
    · exact ih _ _ h

theorem vget_scale_matvec (G : PyGraph) (z : Vec) (s : ℝ) (m : ℕ)
    (h : G.adj m = []) : vget (scaleVec s (matvec G z)) m = 0 := by
  unfold vget
  rw [lookup_scaleVec, lookup_matvec]
  cases hz : z.lookup m <;> simp [rowSum, h]

theorem iterStep_isolated (G : PyGraph) (z : Vec) (m : ℕ) (h : G.adj m = []) :
    vget (iterStep G z) m = 0 := by
  unfold iterStep normalizeStep
  exact vget_scale_matvec G z _ m h

theorem foldl_add_map {α : Type} (f : α → ℝ) :
    ∀ (l : List α) (a : ℝ),
      l.foldl (fun acc b => acc + f b) a = a + (l.map f).sum := by
  intro l
  induction l with
  | nil => intro a; simp
  | cons x t ih => intro a; simp [ih]; ring

theorem rowSum_eq_sum (G : PyGraph) (x : Vec) (n : ℕ) :
    rowSum G x n = ((G.adj n).map (fun bw => vget x bw.1 * weight bw.2)).sum := by
  unfold rowSum
  rw [foldl_add_map, zero_add]

theorem initList_ok (len : ℕ) (h : (len : ℝ) ≠ 0) :
    ∀ l : List ℕ, initList len l = .ok (l.map (fun n => (n, 1 / (len : ℝ)))) := by
  intro l
  induction l with
  | nil => rfl
  | cons n t ih => simp only [initList, pyDiv, if_neg h, ih, List.map_cons]

theorem sumVals_map_const (l : List ℕ) (c : ℝ) :
    sumVals (l.map (fun n => (n, c))) = l.length * c := by
  unfold sumVals
  rw [List.map_map]
  exact sum_map_const l c

theorem scaleVec_map_const (s : ℝ) (l : List ℕ) (c : ℝ) :
    scaleVec s (l.map (fun n => (n, c))) = l.map (fun n => (n, c * s)) := by
  unfold scaleVec
  rw [List.map_map]
  rfl

theorem mem_keys_lookup (v : Vec) (k : ℕ) (h : k ∈ v.map Prod.fst) :
    ∃ b, v.lookup k = some b := by
  induction v with
  | nil => cases h
  | cons p t ih =>
    by_cases hk : k = p.1
    · exact ⟨p.2, by simp [List.lookup, hk]⟩
    · rcases List.mem_cons.mp h with h' | h'
      · exact absurd h' hk
      · rcases ih h' with ⟨b, hb⟩
        have hba : (k == p.1) = false := by simp [hk]
        exact ⟨b, by simp [List.lookup, hba, hb]⟩

theorem matvec_edgeless (G : PyGraph) (h : ∀ n, G.adj n = []) (v : Vec) :
    matvec G v = v.map (fun p => (p.1, 0)) := by
  simp [matvec, rowSum, h]

theorem errSum_map_const (l : List ℕ) (a c : ℝ) :
    errSum (l.map (fun n => (n, a))) (l.map (fun n => (n, c))) =
      l.length * |a - c| := by
  unfold errSum
  rw [List.map_map]
  have hcongr : ∀ n ∈ l,
      ((fun p : ℕ × ℝ => |p.2 - vget (l.map (fun n => (n, c))) p.1|) ∘
        (fun n => (n, a))) n = |a - c| := by
    intro n hn
    simp [vget, lookup_map_const l c n hn]
  rw [List.map_congr_left hcongr]
  exact sum_map_const l _

theorem sumSquares_map_const (l : List ℕ) (c : ℝ) :
    sumSquares (l.map (fun n => (n, c))) = l.length * c ^ 2 := by
  unfold sumSquares
  rw [List.map_map]
  exact sum_map_const l (c ^ 2)

/-- With no multigraph and a non-empty node list, the default-start call
reduces to the power loop started from the uniform `1/len` vector (the L1
normalization is the identity there: the entries already sum to 1). -/
theorem eigenvector_centrality_default (G : PyGraph) (mi : ℕ) (tol : ℝ)
    (hm : G.isMultigraph = false) (hne : G.nodes ≠ []) :
    eigenvector_centrality G mi tol none =
      powerLoop G G.nodes.length tol mi
        (G.nodes.map (fun n => (n, 1 / (G.nodes.length : ℝ)))) := by
  have hlen0 : G.nodes.length ≠ 0 := fun h => hne (List.length_eq_zero.mp h)
  have hlen : (G.nodes.length : ℝ) ≠ 0 := Nat.cast_ne_zero.mpr hlen0
  have hsum : sumVals (G.nodes.map (fun n => (n, 1 / (G.nodes.length : ℝ)))) = 1 := by
    rw [sumVals_map_const, mul_one_div, div_self hlen]
  unfold eigenvector_centrality
  rw [hm]
  simp only [Bool.false_eq_true, if_false, initList_ok _ hlen, hsum, pyDiv,
    one_ne_zero, if_neg, scaleVec_map_const]
  norm_num

/-- One iteration on a graph with no edges at all: the multiplication
yields the all-zero vector, the zero-norm guard fires, and the scale
factor 1 leaves the zero vector in place. -/
theorem iterStep_edgeless (G : PyGraph) (hadj : ∀ n, G.adj n = []) (v : Vec) :
    iterStep G v = v.map (fun p => (p.1, 0)) := by
  unfold iterStep
  rw [matvec_edgeless G hadj]
  unfold normalizeStep
  have h0 : sumSquares (v.map (fun p : ℕ × ℝ => (p.1, (0 : ℝ)))) = 0 := by
    unfold sumSquares
    rw [List.map_map]
    have hfun : ((fun p : ℕ × ℝ => p.2 ^ 2) ∘ (fun p : ℕ × ℝ => (p.1, (0 : ℝ)))) =
        fun _ => (0 : ℝ) := by
      funext p; simp
    rw [hfun, sum_map_const, mul_zero]
  rw [h0, Real.sqrt_zero, if_pos rfl]
  unfold scaleVec
  rw [List.map_map]
  have hfun : ((fun p : ℕ × ℝ => (p.1, p.2 * 1)) ∘ (fun p : ℕ × ℝ => (p.1, (0 : ℝ)))) =
      fun p : ℕ × ℝ => (p.1, (0 : ℝ)) := by
    funext p; simp
  rw [hfun]

/-- A non-empty graph with no edges, default start, `max_iter ≥ 2`,
positive tolerance: the call returns the all-zero vector (on the first
iteration when `1 < n*tol`, else on the second, whose error term is 0). -/
theorem edgeless_ok (G : PyGraph) (mi : ℕ) (tol : ℝ)
    (hadj : ∀ n, G.adj n = []) (hne : G.nodes ≠ []) (hm : G.isMultigraph = false)
    (hfuel : 2 ≤ mi) (htol : 0 < tol) :
    eigenvector_centrality G mi tol none = .ok (G.nodes.map (fun n => (n, 0))) := by
  have hlen0 : G.nodes.length ≠ 0 := fun h => hne (List.length_eq_zero.mp h)
  have hlen : (G.nodes.length : ℝ) ≠ 0 := Nat.cast_ne_zero.mpr hlen0
  have hlenpos : (0 : ℝ) < (G.nodes.length : ℝ) :=
    Nat.cast_pos.mpr (Nat.pos_of_ne_zero hlen0)
  rw [eigenvector_centrality_default G mi tol hm hne]
  obtain ⟨k, rfl⟩ : ∃ k, mi = k + 2 := ⟨mi - 2, by omega⟩
  have hx1 : iterStep G (G.nodes.map (fun n => (n, 1 / (G.nodes.length : ℝ)))) =
      G.nodes.map (fun n => (n, (0 : ℝ))) := by
    rw [iterStep_edgeless G hadj, List.map_map]
    rfl
  have hx2 : iterStep G (G.nodes.map (fun n => (n, (0 : ℝ)))) =
      G.nodes.map (fun n => (n, (0 : ℝ))) := by
    rw [iterStep_edgeless G hadj, List.map_map]
    rfl
  have habs : |(0 : ℝ) - 1 / (G.nodes.length : ℝ)| = 1 / (G.nodes.length : ℝ) := by
    rw [zero_sub, abs_neg, abs_of_nonneg (by positivity)]
  have hlc : (G.nodes.length : ℝ) * (1 / (G.nodes.length : ℝ)) = 1 := by
    rw [mul_one_div, div_self hlen]
  rw [show k + 2 = (k + 1) + 1 from rfl, powerLoop_succ, hx1, errSum_map_const,
    habs, hlc]
  by_cases hcase : (1 : ℝ) < (G.nodes.length : ℝ) * tol
  · rw [if_pos hcase]
  · rw [if_neg hcase, powerLoop_succ, hx2, errSum_map_const]
    have hz : |(0 : ℝ) - 0| = 0 := by simp
    rw [hz, mul_zero, if_pos (mul_pos hlenpos htol)]

/-- Every successful power-iteration call returns the output of a full
iteration (multiplication then normalization). -/
theorem power_ok_cases (G : PyGraph) (mi : ℕ) (tol : ℝ) (ns : Option Vec)
    (x : Vec) (h : eigenvector_centrality G mi tol ns = .ok x) :
    ∃ z, x = iterStep G z := by
  unfold eigenvector_centrality at h
  split at h
  · exact Except.noConfusion h
  · split at h
    · exact Except.noConfusion h
    · split at h
      · exact Except.noConfusion h
      · exact powerLoop_ok _ _ _ _ _ _ h

/-- Any error of a default-start call on a non-multigraph with a
non-empty node list is the convergence failure: the initialization
divisions cannot raise there (`len ≠ 0`, and the default entries sum
to 1). -/
theorem power_default_error (G : PyGraph) (mi : ℕ) (tol : ℝ) (e : PyExc)
    (hm : G.isMultigraph = false) (hne : G.nodes ≠ [])
    (h : eigenvector_centrality G mi tol none = .error e) :
    e = .networkXError convergenceMsg := by
  rw [eigenvector_centrality_default G mi tol hm hne] at h
  exact powerLoop_error _ _ _ _ _ _ h

/-- A zero-node graph reaches the `s=1.0/sum(x.values())` division with
an empty value list, so that division (not the never-evaluated
`1.0/len(G)` of the empty comprehension) raises. -/
theorem empty_graph_zero_div (G : PyGraph) (mi : ℕ) (tol : ℝ)
    (hm : G.isMultigraph = false) (hnodes : G.nodes = []) :
    eigenvector_centrality G mi tol none =
      .error (.zeroDivisionError .startNormalization) := by
  unfold eigenvector_centrality
  rw [hm, hnodes]
  simp [initList, sumVals, pyDiv]

/-- A supplied starting vector summing to 0 makes the same normalization
division raise. -/
theorem nstart_zero_sum_div (G : PyGraph) (mi : ℕ) (tol : ℝ) (ns : Vec)
    (hm : G.isMultigraph = false) (hs : sumVals ns = 0) :
    eigenvector_centrality G mi tol (some ns) =
      .error (.zeroDivisionError .startNormalization) := by
  unfold eigenvector_centrality
  rw [hm]
  simp [pyDiv, hs]

/-! Concrete evaluations on the fixtures. -/

theorem sign_one_eq : Real.sign 1 = 1 := Real.sign_of_pos one_pos

theorem sqrt_quarter : Real.sqrt (1 / 4 : ℝ) = 1 / 2 := by
  rw [show (1 / 4 : ℝ) = (1 / 2) ^ 2 by norm_num,
    Real.sqrt_sq (by norm_num : (0 : ℝ) ≤ 1 / 2)]

theorem errSum_eval_a :
    errSum [(0, (0 : ℝ)), (1, 1)] [(0, (1 : ℝ) / 2), (1, 1 / 2)] = 1 := by
  simp [errSum, vget, List.lookup]
  all_goals norm_num [abs_of_nonneg, abs_of_nonpos]

theorem errSum_eval_b :
    errSum [(0, (0 : ℝ)), (1, 1)] [(0, (0 : ℝ)), (1, 1)] = 0 := by
  simp [errSum, vget, List.lookup]

theorem errSum_eval_c :
    errSum [(0, (1 : ℝ)), (1, 0)] [(0, (0 : ℝ)), (1, 1)] = 2 := by
  simp [errSum, vget, List.lookup]
  all_goals norm_num [abs_of_nonneg, abs_of_nonpos]

theorem errSum_eval_d :
    errSum [(0, (0 : ℝ)), (1, 1)] [(0, (1 : ℝ)), (1, 0)] = 2 := by
  simp [errSum, vget, List.lookup]
  all_goals norm_num [abs_of_nonneg, abs_of_nonpos]

theorem errSum_eval_e : errSum [(0, (0 : ℝ))] [(0, (1 : ℝ))] = 1 := by
  simp [errSum, vget, List.lookup]

theorem errSum_eval_f : errSum [(0, (0 : ℝ))] [(0, (0 : ℝ))] = 0 := by
  simp [errSum, vget, List.lookup]

theorem gloop_iter1 :
    iterStep Gloop [(0, (1 : ℝ) / 2), (1, 1 / 2)] = [(0, 0), (1, 1)] := by
  unfold iterStep matvec rowSum normalizeStep scaleVec sumSquares vget weight
  simp [Gloop, List.lookup]

theorem gloop_iter2 :
    iterStep Gloop [(0, (0 : ℝ)), (1, 1)] = [(0, 0), (1, 1)] := by
  unfold iterStep matvec rowSum normalizeStep scaleVec sumSquares vget weight
  simp [Gloop, List.lookup]

theorem gloop_run_ok :
    eigenvector_centrality Gloop 100 (1 / 1000000) none = .ok [(0, 0), (1, 1)] := by
  rw [eigenvector_centrality_default Gloop 100 (1 / 1000000) rfl (by simp [Gloop])]
  rw [show Gloop.nodes.map
        (fun n => (n, 1 / ((Gloop.nodes.length : ℕ) : ℝ))) =
      [(0, (1 : ℝ) / 2), (1, 1 / 2)] by norm_num [Gloop]]
  rw [show (100 : ℕ) = 99 + 1 from rfl, powerLoop_succ, gloop_iter1, errSum_eval_a]
  rw [if_neg (by norm_num [Gloop])]
  rw [show (99 : ℕ) = 98 + 1 from rfl, powerLoop_succ, gloop_iter2, errSum_eval_b]
  rw [if_pos (by norm_num [Gloop])]

theorem gloop_run_err :
    eigenvector_centrality Gloop 1 (1 / 1000000) none =
      .error (.networkXError convergenceMsg) := by
  rw [eigenvector_centrality_default Gloop 1 (1 / 1000000) rfl (by simp [Gloop])]
  rw [show Gloop.nodes.map
        (fun n => (n, 1 / ((Gloop.nodes.length : ℕ) : ℝ))) =
      [(0, (1 : ℝ) / 2), (1, 1 / 2)] by norm_num [Gloop]]
  rw [show (1 : ℕ) = 0 + 1 from rfl, powerLoop_succ, gloop_iter1, errSum_eval_a]
  rw [if_neg (by norm_num [Gloop]), powerLoop_zero]

theorem gpath_iter1 :
    iterStep Gpath [(0, (0 : ℝ)), (1, 1)] = [(0, 1), (1, 0)] := by
  unfold iterStep matvec rowSum normalizeStep scaleVec sumSquares vget weight
  simp [Gpath, List.lookup]

theorem gpath_iter2 :
    iterStep Gpath [(0, (1 : ℝ)), (1, 0)] = [(0, 0), (1, 1)] := by
  unfold iterStep matvec rowSum normalizeStep scaleVec sumSquares vget weight
  simp [Gpath, List.lookup]

theorem gpath_nstart_reduce (mi : ℕ) :
    eigenvector_centrality Gpath mi (1 / 1000000) (some nsPath) =
      powerLoop Gpath 2 (1 / 1000000) mi [(0, (0 : ℝ)), (1, 1)] := by
  unfold eigenvector_centrality
  norm_num [show Gpath.isMultigraph = false from rfl,
    show Gpath.nodes = [0, 1] from rfl, nsPath, sumVals, pyDiv, scaleVec]

theorem gpath_run_err1 :
    eigenvector_centrality Gpath 1 (1 / 1000000) (some nsPath) =
      .error (.networkXError convergenceMsg) := by
  rw [gpath_nstart_reduce 1]
  rw [show (1 : ℕ) = 0 + 1 from rfl, powerLoop_succ, gpath_iter1, errSum_eval_c]
  rw [if_neg (by norm_num), powerLoop_zero]

theorem gpath_run_err2 :
    eigenvector_centrality Gpath 2 (1 / 1000000) (some nsPath) =
      .error (.networkXError convergenceMsg) := by
  rw [gpath_nstart_reduce 2]
  rw [show (2 : ℕ) = 1 + 1 from rfl, powerLoop_succ, gpath_iter1, errSum_eval_c]
  rw [if_neg (by norm_num)]
  rw [show (1 : ℕ) = 0 + 1 from rfl, powerLoop_succ, gpath_iter2, errSum_eval_d]
  rw [if_neg (by norm_num), powerLoop_zero]

theorem g1_nstart_run :
    eigenvector_centrality G1 100 (1 / 1000000) (some [(0, 1)]) = .ok [(0, 0)] := by
  have hred : eigenvector_centrality G1 100 (1 / 1000000) (some [(0, 1)]) =
      powerLoop G1 1 (1 / 1000000) 100 [(0, (1 : ℝ))] := by
    unfold eigenvector_centrality
    norm_num [show G1.isMultigraph = false from rfl, show G1.nodes = [0] from rfl,
      sumVals, pyDiv, scaleVec]
  rw [hred]
  rw [show (100 : ℕ) = 99 + 1 from rfl, powerLoop_succ,
    iterStep_edgeless G1 (fun _ => rfl)]
  rw [show ([((0 : ℕ), (1 : ℝ))].map (fun p => (p.1, (0 : ℝ)))) =
    [((0 : ℕ), (0 : ℝ))] from rfl]
  rw [errSum_eval_e, if_neg (by norm_num)]
  rw [show (99 : ℕ) = 98 + 1 from rfl, powerLoop_succ,
    iterStep_edgeless G1 (fun _ => rfl)]
  rw [show ([((0 : ℕ), (0 : ℝ))].map (fun p => (p.1, (0 : ℝ)))) =
    [((0 : ℕ), (0 : ℝ))] from rfl]
  rw [errSum_eval_f, if_pos (by norm_num)]

theorem assembled_g1 : assembledVec G1 [[0]] eigC1 = [(0, 1)] := by
  unfold assembledVec processComponent selectedEigvec argmaxIdx signedVec
    listMax adjMatrix lookupWeight updateVec setKey
  simp [G1, eigC1, List.lookup, sign_one_eq]

theorem adjM_g0 : adjMatrix Giso [0] = [[0]] := by
  simp [adjMatrix, lookupWeight, Giso, List.lookup, weight]

theorem adjM_g12 : adjMatrix Giso [1, 2] = [[0, 1], [1, 0]] := by
  simp [adjMatrix, lookupWeight, Giso, List.lookup, weight]

theorem sel_g0 : selectedEigvec eigC2 [[(0 : ℝ)]] = [1] := by
  simp [selectedEigvec, eigC2, argmaxIdx, List.enum, List.enumFrom, List.getD]

theorem sel_g12 :
    selectedEigvec eigC2 [[(0 : ℝ), 1], [1, 0]] =
      [Real.sqrt 2 / 2, Real.sqrt 2 / 2] := by
  simp [selectedEigvec, eigC2, argmaxIdx, List.enum, List.enumFrom, List.getD]
  all_goals norm_num

theorem proc_g0 : processComponent Giso eigC2 [0] = [(0, 1)] := by
  unfold processComponent
  rw [adjM_g0, sel_g0]
  simp [signedVec, listMax, sign_one_eq]

theorem proc_g12 :
    processComponent Giso eigC2 [1, 2] =
      [(1, Real.sqrt 2 / 2), (2, Real.sqrt 2 / 2)] := by
  have hsign : Real.sign (Real.sqrt 2 / 2) = 1 :=
    Real.sign_of_pos (by positivity)
  unfold processComponent
  rw [adjM_g12, sel_g12]
  simp [signedVec, listMax, hsign]

theorem assembled_giso :
    assembledVec Giso [[0], [1, 2]] eigC2 =
      [(0, 1), (1, Real.sqrt 2 / 2), (2, Real.sqrt 2 / 2)] := by
  unfold assembledVec
  rw [show Giso.nodes = [0, 1, 2] from rfl]
  simp only [List.foldl_cons, List.foldl_nil, List.map_cons, List.map_nil]
  rw [proc_g0, proc_g12]
  simp [updateVec, setKey, List.lookup]

theorem sumSquares_giso :
    sumSquares [(0, (1 : ℝ)), (1, Real.sqrt 2 / 2), (2, Real.sqrt 2 / 2)] = 2 := by
  unfold sumSquares
  simp [div_pow]
  norm_num

theorem numpy_giso_result :
    eigenvector_centrality_numpy Giso true [[0], [1, 2]] eigC2 =
      .ok [(0, 1 / Real.sqrt 2), (1, Real.sqrt 2 / 2 / Real.sqrt 2),
           (2, Real.sqrt 2 / 2 / Real.sqrt 2)] := by
  unfold eigenvector_centrality_numpy spectralResult
  simp only [assembled_giso, sumSquares_giso]
  simp [show Giso.isMultigraph = false from rfl]

theorem g1_default_run :
    eigenvector_centrality G1 100 (1 / 1000000) none = .ok [(0, 0)] := by
  have h := edgeless_ok G1 100 (1 / 1000000) (fun _ => rfl) (by simp [G1]) rfl
    (by norm_num) (by norm_num)
  rw [show G1.nodes.map (fun n => (n, (0 : ℝ))) = [((0 : ℕ), (0 : ℝ))] from rfl] at h
  exact h

/-! The claims. -/

/-- C1 (counterexample): a successful `eigenvector_centrality` call on a
1-node edgeless graph returns the all-zero vector, whose Euclidean norm
is 0, not 1 — so the norm-1 invariant fails exactly in the zero-norm
guard case the claim explicitly includes. -/
theorem C1_counterexample :
    eigenvector_centrality G1 100 (1 / 1000000) none = .ok [(0, 0)] ∧
    Real.sqrt (sumSquares [((0 : ℕ), (0 : ℝ))]) ≠ 1 := by
  refine ⟨g1_default_run, ?_⟩
  simp [sumSquares]

/-- C1 (amended): for every graph and every successful
`eigenvector_centrality` call, the returned vector has Euclidean (L2)
norm exactly 1, unless the zero-norm guard fired in the returning
iteration, in which case the returned vector is all-zero (norm 0). -/
theorem C1_amended (G : PyGraph) (mi : ℕ) (tol : ℝ) (ns : Option Vec) (x : Vec)
    (h : eigenvector_centrality G mi tol ns = .ok x) :
    Real.sqrt (sumSquares x) = 1 ∨ ∀ p ∈ x, p.2 = 0 := by
  rcases power_ok_cases G mi tol ns x h with ⟨z, rfl⟩
  exact normalize_norm_or_zero (matvec G z)

/-- C1 (witness): the amended theorem applied to a concrete successful
call. -/
theorem C1_witness :
    eigenvector_centrality G1 100 (1 / 1000000) none = .ok [((0 : ℕ), (0 : ℝ))] ∧
    (Real.sqrt (sumSquares [((0 : ℕ), (0 : ℝ))]) = 1 ∨
      ∀ p ∈ [((0 : ℕ), (0 : ℝ))], p.2 = 0) :=
  ⟨g1_default_run, C1_amended G1 100 (1 / 1000000) none _ g1_default_run⟩

/-- C2 (counterexample): on the graph with isolated node 0 beside the
edge 1-2, `eigenvector_centrality_numpy` (with the eigendecompositions
numpy returns for the two component matrices) gives the isolated node the
score `1/√2`, which is not 0: the singleton component's unit eigenvector
`[1.]` survives the sign convention. -/
theorem C2_counterexample :
    eigenvector_centrality_numpy Giso true [[0], [1, 2]] eigC2 =
      .ok [(0, 1 / Real.sqrt 2), (1, Real.sqrt 2 / 2 / Real.sqrt 2),
           (2, Real.sqrt 2 / 2 / Real.sqrt 2)] ∧
    (1 / Real.sqrt 2 : ℝ) ≠ 0 :=
  ⟨numpy_giso_result, by positivity⟩

/-- C2 (amended): an isolated node's score is exactly 0 in every
successful `eigenvector_centrality` call; a default-start call on a
non-empty non-multigraph never raises `ZeroDivisionError` (its only
error is the convergence failure); but in `eigenvector_centrality_numpy`
the isolated node's score is nonzero (concretely `1/√2` on `Giso`). -/
theorem C2_amended :
    (∀ (G : PyGraph) (mi : ℕ) (tol : ℝ) (ns : Option Vec) (m : ℕ) (x : Vec),
        G.adj m = [] → eigenvector_centrality G mi tol ns = .ok x →
          vget x m = 0) ∧
    (∀ (G : PyGraph) (mi : ℕ) (tol : ℝ) (e : PyExc),
        G.isMultigraph = false → G.nodes ≠ [] →
          eigenvector_centrality G mi tol none = .error e →
            e = .networkXError convergenceMsg) ∧
    (eigenvector_centrality_numpy Giso true [[0], [1, 2]] eigC2 =
        .ok [(0, 1 / Real.sqrt 2), (1, Real.sqrt 2 / 2 / Real.sqrt 2),
             (2, Real.sqrt 2 / 2 / Real.sqrt 2)] ∧
      (1 / Real.sqrt 2 : ℝ) ≠ 0) := by
  refine ⟨?_, ?_, numpy_giso_result, by positivity⟩
  · intro G mi tol ns m x hadj h
    rcases power_ok_cases G mi tol ns x h with ⟨z, rfl⟩
    exact iterStep_isolated G z m hadj
  · intro G mi tol e hm hne h
    exact power_default_error G mi tol e hm hne h

/-- C2 (witness): the amended theorem applied to the isolated node 0 of
`Gloop` (successful run) and to a failing run (whose error is the
convergence failure, not a division fault). -/
theorem C2_witness :
    (Gloop.adj 0 = [] ∧
      eigenvector_centrality Gloop 100 (1 / 1000000) none = .ok [(0, 0), (1, 1)] ∧
      vget [((0 : ℕ), (0 : ℝ)), (1, 1)] 0 = 0) ∧
    (eigenvector_centrality Gloop 1 (1 / 1000000) none =
        .error (.networkXError convergenceMsg) ∧
      (PyExc.networkXError convergenceMsg) = .networkXError convergenceMsg) := by
  refine ⟨⟨rfl, gloop_run_ok, ?_⟩, gloop_run_err, ?_⟩
  · exact C2_amended.1 Gloop 100 (1 / 1000000) none 0 _ rfl gloop_run_ok
  · exact C2_amended.2.1 Gloop 1 (1 / 1000000) _ rfl (by simp [Gloop]) gloop_run_err

/-- C3 (code bug): with `max_iter = 1` and a tiny tolerance on a graph
needing more iterations, the call fails with `NetworkXError`, but its
message is the same fixed literal for `max_iter = 1` and `max_iter = 2`:
the `%`-formatting and `(i+1)` of lines 100-101 sit inside the
triple-quoted string, so the attempted-iteration count is never carried. -/
theorem C3_convergence_message :
    eigenvector_centrality Gpath 1 (1 / 1000000) (some nsPath) =
      .error (.networkXError convergenceMsg) ∧
    eigenvector_centrality Gpath 2 (1 / 1000000) (some nsPath) =
      .error (.networkXError convergenceMsg) ∧
    convergenceMsg =
      "eigenvector_centrality(): \npower iteration failed to converge in %d iterations.\"%(i+1))" :=
  ⟨gpath_run_err1, gpath_run_err2, rfl⟩

/-- C4 (counterexample): on the 1-node edgeless graph with
`max_iter = 1` and `tol = 1e-6` the call raises the convergence failure
instead of converging on the first iteration: the first iteration's
error term is 1 (the L1 mass of the initial vector), not 0. -/
theorem C4_counterexample :
    eigenvector_centrality G1 1 (1 / 1000000) none =
      .error (.networkXError convergenceMsg) ∧
    errSum (iterStep G1 [(0, 1)]) [(0, 1)] = 1 := by
  constructor
  · rw [eigenvector_centrality_default G1 1 (1 / 1000000) rfl (by simp [G1])]
    rw [show G1.nodes.map (fun n => (n, 1 / ((G1.nodes.length : ℕ) : ℝ))) =
      [(0, (1 : ℝ))] by norm_num [G1]]
    rw [show (1 : ℕ) = 0 + 1 from rfl, powerLoop_succ,
      iterStep_edgeless G1 (fun _ => rfl)]
    rw [show ([((0 : ℕ), (1 : ℝ))].map (fun p => (p.1, (0 : ℝ)))) =
      [((0 : ℕ), (0 : ℝ))] from rfl]
    rw [errSum_eval_e, if_neg (by norm_num [G1]), powerLoop_zero]
  · rw [iterStep_edgeless G1 (fun _ => rfl)]
    rw [show ([((0 : ℕ), (1 : ℝ))].map (fun p => (p.1, (0 : ℝ)))) =
      [((0 : ℕ), (0 : ℝ))] from rfl]
    exact errSum_eval_e

/-- C4 (amended): on a non-empty graph with no edges, the first
multiplication gives the all-zero vector and the guard prevents a
division fault, but the first iteration's error equals 1; with
`max_iter ≥ 2` and positive tolerance the call returns the all-zero
vector (on the first iteration when `1 < n*tol`, else on the second,
whose error term is 0). -/
theorem C4_amended (G : PyGraph) (mi : ℕ) (tol : ℝ)
    (hadj : ∀ n, G.adj n = []) (hne : G.nodes ≠ []) (hm : G.isMultigraph = false)
    (hfuel : 2 ≤ mi) (htol : 0 < tol) :
    eigenvector_centrality G mi tol none = .ok (G.nodes.map (fun n => (n, 0))) :=
  edgeless_ok G mi tol hadj hne hm hfuel htol

/-- C4 (witness): the amended theorem applied to the 1-node edgeless
graph with default parameters. -/
theorem C4_witness :
    (∀ n, G1.adj n = []) ∧ G1.nodes ≠ [] ∧ G1.isMultigraph = false ∧
    2 ≤ 100 ∧ (0 : ℝ) < 1 / 1000000 ∧
    eigenvector_centrality G1 100 (1 / 1000000) none =
      .ok (G1.nodes.map (fun n => (n, 0))) := by
  refine ⟨fun _ => rfl, by simp [G1], rfl, by norm_num, by norm_num, ?_⟩
  exact C4_amended G1 100 (1 / 1000000) (fun _ => rfl) (by simp [G1]) rfl
    (by norm_num) (by norm_num)

/-- C5 (counterexample): a multigraph passed to
`eigenvector_centrality_numpy` in an environment without numpy fails
with `ImportError`, not with the multigraph rejection — so the
multigraph check is not the first check of that entry point. -/
theorem C5_counterexample :
    eigenvector_centrality_numpy Gmulti false [] eigC1 =
      .error (.importError
        "eigenvector_centrality_numpy() requires NumPy: http://scipy.org/") ∧
    PyExc.importError
        "eigenvector_centrality_numpy() requires NumPy: http://scipy.org/" ≠
      PyExc.exception
        "eigenvector_centrality_numpy() not defined for multigraphs." := by
  exact ⟨rfl, by simp⟩

/-- C5 (amended): every multigraph is rejected immediately with the
multigraph `Exception` by `eigenvector_centrality` (its first check) and
by `eigenvector_centrality_numpy` once the numpy import has succeeded —
in both cases before any numeric work, with no partial computation. -/
theorem C5_amended :
    (∀ (G : PyGraph) (mi : ℕ) (tol : ℝ) (ns : Option Vec),
        G.isMultigraph = true →
          eigenvector_centrality G mi tol ns =
            .error (.exception
              "eigenvector_centrality() not defined for multigraphs.")) ∧
    (∀ (G : PyGraph) (comps : List (List ℕ)) (eig : EigOracle),
        G.isMultigraph = true →
          eigenvector_centrality_numpy G true comps eig =
            .error (.exception
              "eigenvector_centrality_numpy() not defined for multigraphs.")) := by
  constructor
  · intro G mi tol ns hm
    unfold eigenvector_centrality
    simp [hm]
  · intro G comps eig hm
    unfold eigenvector_centrality_numpy
    simp [hm]

/-- C5 (witness): the amended theorem applied to a concrete multigraph. -/
theorem C5_witness :
    Gmulti.isMultigraph = true ∧
    eigenvector_centrality Gmulti 100 (1 / 1000000) none =
      .error (.exception "eigenvector_centrality() not defined for multigraphs.") ∧
    eigenvector_centrality_numpy Gmulti true [] eigC1 =
      .error (.exception
        "eigenvector_centrality_numpy() not defined for multigraphs.") :=
  ⟨rfl, C5_amended.1 Gmulti 100 (1 / 1000000) none rfl,
    C5_amended.2 Gmulti [] eigC1 rfl⟩

/-- C6 (confirmed): for every connected component processed by
`eigenvector_centrality_numpy`, the values written are the selected
dominant eigenvector multiplied entrywise by the sign of its maximum
entry; when that maximum is exactly 0 the sign is 0 and every written
value for the component is 0. -/
theorem C6_sign_convention (G : PyGraph) (eig : EigOracle) (comp : List ℕ) :
    processComponent G eig comp =
      comp.zip ((selectedEigvec eig (adjMatrix G comp)).map
        (fun a => a * Real.sign (listMax (selectedEigvec eig (adjMatrix G comp))))) ∧
    (listMax (selectedEigvec eig (adjMatrix G comp)) = 0 →
      ∀ p ∈ processComponent G eig comp, p.2 = 0) := by
  constructor
  · rfl
  · intro h p hp
    unfold processComponent at hp
    rcases p with ⟨a, b⟩
    have hb := (List.of_mem_zip hp).2
    unfold signedVec at hb
    rcases List.mem_map.mp hb with ⟨q, _, rfl⟩
    rw [h, Real.sign_zero, mul_zero]

/-- C6 (witness): the zero-collapse case at a concrete decomposition
whose dominant eigenvector `[0, -1]` has maximum entry exactly 0. -/
theorem C6_witness :
    listMax (selectedEigvec eigZ (adjMatrix Gpath [0, 1])) = 0 ∧
    ∀ p ∈ processComponent Gpath eigZ [0, 1], p.2 = 0 := by
  have hsel : selectedEigvec eigZ (adjMatrix Gpath [0, 1]) = [0, -1] := by
    simp [selectedEigvec, eigZ, argmaxIdx, List.enum, List.enumFrom, List.getD]
  have h : listMax (selectedEigvec eigZ (adjMatrix Gpath [0, 1])) = 0 := by
    rw [hsel]
    simp [listMax]
  exact ⟨h, (C6_sign_convention Gpath eigZ [0, 1]).2 h⟩

/-- C7 (counterexample): for the empty graph,
`eigenvector_centrality_numpy` returns the empty mapping, whose global
L2 norm is 0, not 1. -/
theorem C7_counterexample :
    eigenvector_centrality_numpy Gempty true [] eigC1 = .ok [] ∧
    Real.sqrt (sumSquares ([] : Vec)) ≠ 1 := by
  constructor
  · unfold eigenvector_centrality_numpy spectralResult assembledVec
    simp [Gempty]
  · simp [sumSquares]

/-- C7 (amended): whenever the assembled per-component vector is nonzero
(in particular the graph is non-empty), the returned vector is the
assembled vector divided once, globally, by its whole-vector L2 norm,
and its global L2 norm equals 1. -/
theorem C7_amended (G : PyGraph) (comps : List (List ℕ)) (eig : EigOracle)
    (hm : G.isMultigraph = false)
    (h : sumSquares (assembledVec G comps eig) ≠ 0) :
    eigenvector_centrality_numpy G true comps eig =
      .ok (spectralResult G comps eig) ∧
    Real.sqrt (sumSquares (spectralResult G comps eig)) = 1 := by
  constructor
  · unfold eigenvector_centrality_numpy
    simp [hm]
  · have hpos : 0 < sumSquares (assembledVec G comps eig) :=
      lt_of_le_of_ne (sumSquares_nonneg _) (Ne.symm h)
    unfold spectralResult
    rw [sumSquares_div, Real.sq_sqrt hpos.le, div_self h, Real.sqrt_one]

/-- C7 (witness): the amended theorem applied to the 1-node graph. -/
theorem C7_witness :
    sumSquares (assembledVec G1 [[0]] eigC1) ≠ 0 ∧
    eigenvector_centrality_numpy G1 true [[0]] eigC1 =
      .ok (spectralResult G1 [[0]] eigC1) ∧
    Real.sqrt (sumSquares (spectralResult G1 [[0]] eigC1)) = 1 := by
  have h : sumSquares (assembledVec G1 [[0]] eigC1) ≠ 0 := by
    rw [assembled_g1]
    simp [sumSquares]
  exact ⟨h, (C7_amended G1 [[0]] eigC1 rfl h).1, (C7_amended G1 [[0]] eigC1 rfl h).2⟩

/-- C8 (confirmed): in every iteration, the entry of the new vector at a
key `n` of the previous vector is `Σ over neighbors b of previous[b] *
weight(n,b)` (weights defaulting to 1), multiplied by the normalization
scale, which is `1/‖·‖₂` unless the norm is exactly zero, in which case
it is 1; the formula reads only the pre-iteration vector, which the
iteration never mutates (line 84 builds a fresh dict). -/
theorem C8_iteration (G : PyGraph) (x : Vec) (n : ℕ)
    (hn : n ∈ x.map Prod.fst) :
    vget (iterStep G x) n =
      ((G.adj n).map (fun bw => vget x bw.1 * weight bw.2)).sum *
        (if Real.sqrt (sumSquares (matvec G x)) = 0 then 1
         else 1 / Real.sqrt (sumSquares (matvec G x))) := by
  rcases mem_keys_lookup x n hn with ⟨b, hb⟩
  show ((iterStep G x).lookup n).getD 0 = _
  unfold iterStep normalizeStep
  rw [lookup_scaleVec, lookup_matvec, hb]
  simp only [Option.map_some', Option.getD_some]
  rw [rowSum_eq_sum]

/-- C8 (witness): the iteration formula at a concrete graph and vector. -/
theorem C8_witness :
    (1 : ℕ) ∈ ([(0, (1 : ℝ)), (1, 2)] : Vec).map Prod.fst ∧
    vget (iterStep Gloop [(0, (1 : ℝ)), (1, 2)]) 1 =
      ((Gloop.adj 1).map
          (fun bw => vget [(0, (1 : ℝ)), (1, 2)] bw.1 * weight bw.2)).sum *
        (if Real.sqrt (sumSquares (matvec Gloop [(0, (1 : ℝ)), (1, 2)])) = 0 then 1
         else 1 / Real.sqrt (sumSquares (matvec Gloop [(0, (1 : ℝ)), (1, 2)]))) := by
  have hn : (1 : ℕ) ∈ ([(0, (1 : ℝ)), (1, 2)] : Vec).map Prod.fst := by simp
  exact ⟨hn, C8_iteration Gloop [(0, (1 : ℝ)), (1, 2)] 1 hn⟩

/-- C9 (counterexample): a caller-supplied `nstart` whose values already
sum to 1 is scaled by 1 and therefore retains its original values after
a successful call — refuting the claim that the argument never retains
its original values. -/
theorem C9_counterexample :
    nstart_after_call [(0, 1)] = [(0, 1)] ∧
    eigenvector_centrality G1 100 (1 / 1000000) (some [(0, 1)]) = .ok [(0, 0)] := by
  constructor
  · unfold nstart_after_call
    norm_num [sumVals, pyDiv, scaleVec]
  · exact g1_nstart_run

/-- C9 (amended): the call aliases the supplied `nstart` and scales each
of its entries in place by `1/sum(values)` during the initial L1
normalization; the caller's mapping afterwards holds the scaled values,
and a nonzero entry is actually changed exactly when the sum differs
from 1. -/
theorem C9_amended (ns : Vec) (h : sumVals ns ≠ 0) :
    nstart_after_call ns = scaleVec (1 / sumVals ns) ns ∧
    ∀ p ∈ ns, p.2 ≠ 0 → sumVals ns ≠ 1 → p.2 * (1 / sumVals ns) ≠ p.2 := by
  constructor
  · unfold nstart_after_call
    rw [show pyDiv .startNormalization 1 (sumVals ns) = .ok (1 / sumVals ns) from by
      unfold pyDiv
      rw [if_neg h]]
  · intro p _ hp hs1 hcontra
    apply hs1
    have h1 : p.2 * (1 / sumVals ns) = p.2 * 1 := by rw [mul_one]; exact hcontra
    have h2 : 1 / sumVals ns = 1 := mul_left_cancel₀ hp h1
    exact ((div_eq_one_iff_eq h).mp h2).symm

/-- C9 (witness): the amended theorem applied to a concrete `nstart`
with sum 2, whose entry is halved in place. -/
theorem C9_witness :
    sumVals [((0 : ℕ), (2 : ℝ))] ≠ 0 ∧
    nstart_after_call [(0, 2)] =
      scaleVec (1 / sumVals [((0 : ℕ), (2 : ℝ))]) [(0, 2)] := by
  have h : sumVals [((0 : ℕ), (2 : ℝ))] ≠ 0 := by norm_num [sumVals]
  exact ⟨h, (C9_amended [(0, 2)] h).1⟩

/-- C10 (counterexample): for the zero-node graph the uncaught
`ZeroDivisionError` is raised by the L1-normalization division
`s=1.0/sum(x.values())` (the sum over no values is 0), not by the
start-value division `1.0/len(G)`, which the empty comprehension never
evaluates. -/
theorem C10_counterexample :
    eigenvector_centrality Gempty 100 (1 / 1000000) none =
      .error (.zeroDivisionError .startNormalization) ∧
    DivSite.startNormalization ≠ DivSite.startValue :=
  ⟨empty_graph_zero_div Gempty 100 (1 / 1000000) rfl rfl, by decide⟩

/-- C10 (amended): the initialization phase performs two unguarded
divisions; for a zero-node graph the comprehension never evaluates
`1.0/len(G)` and the uncaught `ZeroDivisionError` instead comes from the
L1-normalization `1/sum` over the empty value set; for a supplied
starting vector summing to 0 the same normalization division raises —
in both cases an error outside the declared taxonomy escapes. -/
theorem C10_amended :
    (∀ (G : PyGraph) (mi : ℕ) (tol : ℝ),
        G.isMultigraph = false → G.nodes = [] →
          eigenvector_centrality G mi tol none =
            .error (.zeroDivisionError .startNormalization)) ∧
    (∀ (G : PyGraph) (mi : ℕ) (tol : ℝ) (ns : Vec),
        G.isMultigraph = false → sumVals ns = 0 →
          eigenvector_centrality G mi tol (some ns) =
            .error (.zeroDivisionError .startNormalization)) :=
  ⟨fun G mi tol hm hn => empty_graph_zero_div G mi tol hm hn,
   fun G mi tol ns hm hs => nstart_zero_sum_div G mi tol ns hm hs⟩

/-- C10 (witness): the amended theorem applied to the empty graph and to
a zero-sum starting vector. -/
theorem C10_witness :
    Gempty.isMultigraph = false ∧ Gempty.nodes = [] ∧
    eigenvector_centrality Gempty 100 (1 / 1000000) none =
      .error (.zeroDivisionError .startNormalization) ∧
    sumVals [((0 : ℕ), (0 : ℝ))] = 0 ∧
    eigenvector_centrality G1 100 (1 / 1000000) (some [(0, 0)]) =
      .error (.zeroDivisionError .startNormalization) := by
  refine ⟨rfl, rfl, C10_amended.1 Gempty 100 (1 / 1000000) rfl rfl,
    by simp [sumVals], ?_⟩
  exact C10_amended.2 G1 100 (1 / 1000000) [(0, 0)] rfl (by simp [sumVals])

end EV
